import Mathlib

/-!
Verification of the cart-splitting and fee-calculation core of the
chijji_wala quick-commerce storefront.

The TypeScript source is shallowly embedded:
  * JavaScript strings are modelled as lists of characters (`JSString`),
    so that `trim`, `toLowerCase` and `parseFloat` can be modelled and
    reasoned about character by character.
  * JavaScript numbers holding money are modelled as exact rationals
    (`ℚ`); `Math.round(x*100)/100` and `toFixed(2)` become exact round
    half-up at the cent boundary (`round2`).  The model therefore does
    not capture binary floating-point representation artifacts.
  * The Supabase persistence layer is modelled by returning the rows
    that the server action writes; external effects whose outcome is
    not determined by the inputs (storage upload, row insert) are
    supplied as oracle values.
  * `Date` parsing and local calendar fields are modelled by an integer
    millisecond timestamp whose fixed local-timezone offset is absorbed
    into the timestamp itself.
-/

namespace HXD

/-- JavaScript strings, modelled as explicit character lists. -/
abbrev JSString := List Char

/-- `String.prototype.trim()`: drop whitespace from both ends. -/
def jsTrim (s : JSString) : JSString :=
  (s.dropWhile Char.isWhitespace).rdropWhile Char.isWhitespace

/-- `String.prototype.toLowerCase()` (ASCII, as `Char.toLower`). -/
def jsToLower (s : JSString) : JSString :=
  s.map Char.toLower

/-- Numeric value of a list of decimal digit characters (most significant first). -/
def digitsToNat (ds : JSString) : Nat :=
  ds.foldl (fun n c => 10 * n + (c.toNat - 48)) 0

/-- Exponent part of a JS float literal: optional sign then digits.
`parseFloat("1e5")` honours the exponent, `parseFloat("1e")` ignores the `e`. -/
def parseExpPart (s : JSString) : Option Int :=
  match s with
  | '+' :: r => if r.takeWhile Char.isDigit = [] then none else some (digitsToNat (r.takeWhile Char.isDigit) : Int)
  | '-' :: r => if r.takeWhile Char.isDigit = [] then none else some (-(digitsToNat (r.takeWhile Char.isDigit) : Int))
  | r => if r.takeWhile Char.isDigit = [] then none else some (digitsToNat (r.takeWhile Char.isDigit) : Int)

/-- Apply a trailing `e`/`E` exponent (if validly present) to a mantissa. -/
def applyExpPart (m : ℚ) (rest : JSString) : ℚ :=
  match rest with
  | 'e' :: r =>
    (match parseExpPart r with
     | some e => m * (10 : ℚ) ^ e
     | none => m)
  | 'E' :: r =>
    (match parseExpPart r with
     | some e => m * (10 : ℚ) ^ e
     | none => m)
  | _ => m

/-- Parse an unsigned decimal mantissa (digits, optional point, digits) plus
optional exponent, reading the longest valid prefix; `none` when no digit is
consumed (JS `NaN`). -/
def parseDecimal (s : JSString) : Option ℚ :=
  let intDigits := s.takeWhile Char.isDigit
  let rest1 := s.dropWhile Char.isDigit
  match rest1 with
  | '.' :: rest2 =>
    let fracDigits := rest2.takeWhile Char.isDigit
    if intDigits = [] ∧ fracDigits = [] then none
    else
      let mant : ℚ := (digitsToNat intDigits : ℚ) +
        (digitsToNat fracDigits : ℚ) / (10 : ℚ) ^ fracDigits.length
      some (applyExpPart mant (rest2.dropWhile Char.isDigit))
  | _ =>
    if intDigits = [] then none
    else some (applyExpPart (digitsToNat intDigits : ℚ) rest1)

/-- Model of JS `parseFloat` on decimal literals: skip leading whitespace,
optional sign, longest valid numeric prefix; `none` models `NaN`.
(The `Infinity` literal is outside the modelled domain.) -/
def jsParseFloat (s : JSString) : Option ℚ :=
  match s.dropWhile Char.isWhitespace with
  | '+' :: rest => parseDecimal rest
  | '-' :: rest => (parseDecimal rest).map (fun q => -q)
  | rest => parseDecimal rest

/-- JS `Math.round`: round half toward positive infinity, `⌊x + 1/2⌋`. -/
def jsRound (x : ℚ) : Int :=
  ⌊x + 1 / 2⌋

/-- Round a rational to the cent boundary, as `Math.round(x*100)/100` and as
the `NUMERIC(10,2)` value obtained from `toFixed(2)`. -/
def round2 (x : ℚ) : ℚ :=
  (jsRound (x * 100) : ℚ) / 100

-- ── Cart data model (store/useCartStore.ts) ─────────────────────────

/-- DB `products` row, as snapshotted into the cart at add-to-cart time.
`price` is a NUMERIC(10,2) serialised as a string by the Supabase client. -/
structure Product where
  id : JSString
  name : JSString
  description : Option JSString
  category : JSString
  price : JSString
  image_url : Option JSString
  is_available : Bool
  available_from : Option JSString
  available_until : Option JSString
  is_fragile : Bool
  requires_custom_text : Bool
deriving DecidableEq

/-- A single line item in the cart (`CartItem` in store/useCartStore.ts). -/
structure CartItem where
  cartItemId : JSString
  product : Product
  quantity : Int
  custom_message : Option JSString
  is_fragile : Bool
  is_preorder : Bool
deriving DecidableEq

/-- Payload accepted by `addItem`; the store derives `cartItemId` internally.
`quantity?` models the `quantity = 1` destructuring default and
`is_preorder?` the `payload.is_preorder ?? false` fallback. -/
structure AddItemPayload where
  product : Product
  quantity? : Option Int
  custom_message : Option JSString
  is_preorder? : Option Bool
deriving DecidableEq

/-- Payload for `updateQuantity`. -/
structure UpdateQuantityPayload where
  cartItemId : JSString
  quantity : Int
deriving DecidableEq

/-- Derive the stable line-item identity key:
`productId :: (custom_message ?? '').trim().toLowerCase()`. -/
def buildCartItemId (productId : JSString) (custom_message : Option JSString) : JSString :=
  productId ++ ':' :: ':' :: jsToLower (jsTrim (custom_message.getD []))

/-- Price contribution of one cart line:
`(isNaN(parseFloat(price)) ? 0 : parseFloat(price)) * quantity`. -/
def cartItemContribution (item : CartItem) : ℚ :=
  (match jsParseFloat item.product.price with
   | none => 0
   | some p => p) * (item.quantity : ℚ)

/-- `calcSubtotalForItems`: reduce over the items summing parsed price times
quantity (malformed price treated as 0), then `Math.round(raw*100)/100`. -/
def calcSubtotalForItems (items : List CartItem) : ℚ :=
  round2 (items.foldl (fun sum item => sum + cartItemContribution item) 0)

/-- The derived result of `splitCartIntoTwo`. -/
structure SplitCart where
  instantItems : List CartItem
  preorderItems : List CartItem
  instantSubtotal : ℚ
  preorderSubtotal : ℚ
  instantHasFragile : Bool
  preorderHasFragile : Bool
deriving DecidableEq

/-- The single-pass partition loop of `splitCartIntoTwo`: push each item onto
`preorderItems` when `is_preorder`, else onto `instantItems`, preserving order. -/
def splitLoop : List CartItem → List CartItem × List CartItem
  | [] => ([], [])
  | item :: rest =>
    let p := splitLoop rest
    if item.is_preorder then (p.1, item :: p.2) else (item :: p.1, p.2)

/-- `splitCartIntoTwo`: partition the cart into instant vs pre-order items and
compute each partition's subtotal and fragile flag. Pure; does not mutate. -/
def splitCartIntoTwo (items : List CartItem) : SplitCart :=
  let p := splitLoop items
  { instantItems := p.1
    preorderItems := p.2
    instantSubtotal := calcSubtotalForItems p.1
    preorderSubtotal := calcSubtotalForItems p.2
    instantHasFragile := p.1.any (fun i => i.is_fragile)
    preorderHasFragile := p.2.any (fun i => i.is_fragile) }

/-- `selectHasMixedAvailability`: true iff the cart has ≥ 2 items and contains
both an instant and a pre-order item. -/
def selectHasMixedAvailability (items : List CartItem) : Bool :=
  if items.length < 2 then false
  else (items.any (fun i => !i.is_preorder)) && (items.any (fun i => i.is_preorder))

-- ── Cart mutations ───────────────────────────────────────────────────

/-- `findIndex` + copy-with-updated-element of the merge path of `addItem`:
increment the quantity of the FIRST item matching `incomingId`; `none` when no
item matches (the `existingIndex === -1` case). -/
def addQtyToFirstMatch (incomingId : JSString) (qty : Int) :
    List CartItem → Option (List CartItem)
  | [] => none
  | item :: rest =>
    if item.cartItemId = incomingId then
      some ({ item with quantity := item.quantity + qty } :: rest)
    else
      match addQtyToFirstMatch incomingId qty rest with
      | some rest' => some (item :: rest')
      | none => none

/-- `addItem`: merge by incrementing quantity when a line with the same
identity exists, otherwise append a new line with `is_fragile` copied from the
product and the message stored as `custom_message?.trim() || undefined`. -/
def addItem (items : List CartItem) (payload : AddItemPayload) : List CartItem :=
  match addQtyToFirstMatch (buildCartItemId payload.product.id payload.custom_message)
      (payload.quantity?.getD 1) items with
  | some merged => merged
  | none =>
    items ++ [{ cartItemId := buildCartItemId payload.product.id payload.custom_message
                product := payload.product
                quantity := payload.quantity?.getD 1
                custom_message :=
                  match payload.custom_message with
                  | some m => if jsTrim m = [] then none else some (jsTrim m)
                  | none => none
                is_fragile := payload.product.is_fragile
                is_preorder := payload.is_preorder?.getD false }]

/-- `removeItem`: delete the matching line item (filter by identity). -/
def removeItem (items : List CartItem) (cartItemId : JSString) : List CartItem :=
  items.filter (fun item => item.cartItemId ≠ cartItemId)

/-- `updateQuantity`: quantity ≤ 0 removes the line, otherwise overwrite the
quantity of the matching line. -/
def updateQuantity (items : List CartItem) (payload : UpdateQuantityPayload) :
    List CartItem :=
  if payload.quantity ≤ 0 then
    items.filter (fun item => item.cartItemId ≠ payload.cartItemId)
  else
    items.map (fun item =>
      if item.cartItemId = payload.cartItemId then
        { item with quantity := payload.quantity }
      else item)

/-- `removeAllByProductId`: delete every message variant of a product. -/
def removeAllByProductId (items : List CartItem) (productId : JSString) :
    List CartItem :=
  items.filter (fun item => item.product.id ≠ productId)

/-- `clearCart`: `set({ items: [] })`. -/
def clearCart (_items : List CartItem) : List CartItem := []

/-- One cart store action, for quantifying over operation sequences. -/
inductive CartOp where
  | add (payload : AddItemPayload)
  | remove (cartItemId : JSString)
  | update (payload : UpdateQuantityPayload)
  | removeAllByProduct (productId : JSString)
  | clear

/-- Apply one store action to the `items` state. -/
def applyOp (items : List CartItem) : CartOp → List CartItem
  | .add payload => addItem items payload
  | .remove cartItemId => removeItem items cartItemId
  | .update payload => updateQuantity items payload
  | .removeAllByProduct productId => removeAllByProductId items productId
  | .clear => clearCart items

/-- A persisted v0 cart line: a `CartItem` before `cartItemId` existed
(`Omit<CartItem, 'cartItemId'>` in the migration). -/
structure LegacyCartItem where
  product : Product
  quantity : Int
  custom_message : Option JSString
  is_fragile : Bool
  is_preorder : Bool
deriving DecidableEq

/-- The v0 → v1 persistence migration: rebuild `cartItemId` from
`product.id` and `custom_message` for every stored line. -/
def migrateV0toV1 (old : List LegacyCartItem) : List CartItem :=
  old.map (fun item =>
    { cartItemId := buildCartItemId item.product.id item.custom_message
      product := item.product
      quantity := item.quantity
      custom_message := item.custom_message
      is_fragile := item.is_fragile
      is_preorder := item.is_preorder })

-- ── lib/fees.ts ──────────────────────────────────────────────────────

/-- Standard flat delivery fee (PKR) applied to every order. -/
def BASE_DELIVERY_FEE : ℚ := 150

/-- Extra fee (PKR) added when the basket contains ≥ 1 fragile item. -/
def FRAGILE_ITEM_FEE : ℚ := 100

/-- Pre-order operating window constants. -/
structure PreorderWindow where
  openHour : Int
  openMinute : Int
  closeHour : Int
  closeMinute : Int

def PREORDER_WINDOW : PreorderWindow :=
  { openHour := 10, openMinute := 0, closeHour := 23, closeMinute := 0 }

/-- Minimum lead-time (ms) a pre-order must be in the future. -/
def PREORDER_MIN_LEAD_MS : Int := 30 * 60 * 1000

/-- `getHours() * 60 + getMinutes()` of a `Date` whose timestamp is `t`
milliseconds, in a fixed local timezone absorbed into `t`. -/
def timeOfDayMins (t : Int) : Int :=
  (t.ediv 60000).emod 1440

/-- `validateDeliveryTime`: `requested?` is the `new Date(isoString)` parse
result (`none` = invalid date), `now` the current timestamp in ms.  Returns
`none` on success or the user-facing error string. -/
def validateDeliveryTime (requested? : Option Int) (now : Int) : Option String :=
  match requested? with
  | none => some "Please select a valid delivery time."
  | some requested =>
    let minAllowed := now + PREORDER_MIN_LEAD_MS
    if requested < minAllowed then
      some "Delivery time must be at least 30 minutes from now."
    else
      let totalMins := timeOfDayMins requested
      let openMins := PREORDER_WINDOW.openHour * 60 + PREORDER_WINDOW.openMinute
      let closeMins := PREORDER_WINDOW.closeHour * 60 + PREORDER_WINDOW.closeMinute
      if totalMins < openMins ∨ totalMins > closeMins then
        some "Delivery is only available between 10:00 AM and 11:00 PM."
      else
        none

-- ── actions/processOrder.ts ──────────────────────────────────────────

/-- The product slice serialised by the checkout form for one cart line. -/
structure SerializedProduct where
  id : JSString
  name : JSString
  price : JSString
  is_fragile : Bool
deriving DecidableEq

/-- Serialised cart item sent from the checkout form. -/
structure SerializedCartItem where
  product : SerializedProduct
  quantity : Int
  custom_message : Option JSString
  is_preorder : Bool
deriving DecidableEq

def ALLOWED_PAYMENT_METHODS : List JSString :=
  ["cash_on_delivery".toList, "online_transfer".toList, "card".toList, "wallet".toList]

def MAX_RECEIPT_BYTES : Nat := 5 * 1024 * 1024

def ALLOWED_RECEIPT_MIME : List String :=
  ["image/jpeg", "image/png", "image/webp", "application/pdf"]

/-- `isValidPhone`: `/^(\+92|0)?3\d{9}$/` after stripping whitespace. -/
def phoneTail (l : JSString) : Bool :=
  match l with
  | '3' :: ds => ds.length = 9 && ds.all Char.isDigit
  | _ => false

def isValidPhone (phone : JSString) : Bool :=
  let p := phone.filter (fun c => !c.isWhitespace)
  match p with
  | '+' :: '9' :: '2' :: rest => phoneTail rest
  | '0' :: rest => phoneTail rest
  | rest => phoneTail rest

/-- Uploaded payment receipt, as far as validation observes it. -/
structure ReceiptFile where
  size : Nat
  mime : String
deriving DecidableEq

/-- The sanitised `requested_delivery_time` form field: absent/empty string,
or a non-empty string together with its `new Date(...)` parse result. -/
inductive DeliveryTimeField where
  | empty
  | given (parsed? : Option Int)

/-- The raw form submission, with JSON and `Date` parsing of the two
structured fields abstracted into their results. -/
structure ProcessOrderInput where
  customer_name : JSString
  customer_phone : JSString
  address_line1 : JSString
  address_line2 : JSString
  address_city : JSString
  payment_method : JSString
  delivery_time : DeliveryTimeField
  cart_items : Option (List SerializedCartItem)
  payment_receipt : Option ReceiptFile

/-- Outcomes of the external Supabase calls made on the happy path. -/
structure DbOracles where
  receiptUploadUrl : Option String
  insertedOrderId : Option String
  itemsInsertOk : Bool

/-- A row written to `orders`; the money columns hold the NUMERIC(10,2)
values produced via `toFixed(2)`. -/
structure OrderInsertModel where
  customer_name : JSString
  customer_phone : JSString
  address_line1 : JSString
  address_line2 : Option JSString
  address_city : JSString
  status : String
  payment_method : JSString
  payment_receipt_url : Option String
  subtotal : ℚ
  base_delivery_fee : ℚ
  fragile_item_fee : ℚ
  is_preorder : Bool
  requested_delivery_time : Option Int
deriving DecidableEq

/-- `orders.total_amount`: SQL generated column
`subtotal + base_delivery_fee + fragile_item_fee` (001_initial_schema.sql). -/
def totalAmount (o : OrderInsertModel) : ℚ :=
  o.subtotal + o.base_delivery_fee + o.fragile_item_fee

/-- A row written to `order_items`. -/
structure OrderItemInsertModel where
  order_id : String
  product_id : JSString
  quantity : Int
  price_at_purchase : JSString
  custom_message : Option JSString
deriving DecidableEq

/-- `ProcessOrderResult`. -/
inductive ProcResult where
  | ok (orderId : String)
  | err (error : String) (fieldErrors : List (String × String))
deriving DecidableEq

/-- Server-side subtotal (processOrder STEP 3):
`sum + (isNaN(price) ? 0 : price * item.quantity)` over the items. -/
def serverSubtotal (items : List SerializedCartItem) : ℚ :=
  items.foldl
    (fun sum item =>
      sum + match jsParseFloat item.product.price with
            | none => 0
            | some p => p * (item.quantity : ℚ))
    0

/-- Pre-order validation step of processOrder: the collected
`requested_delivery_time` field errors, the resulting `isPreorder` flag and
the stored `requestedDeliveryTime`. -/
def preorderStep (hasPreorderItems : Bool) (field : DeliveryTimeField) (now : Int) :
    List (String × String) × Bool × Option Int :=
  if hasPreorderItems then
    match field with
    | .empty =>
      ([("requested_delivery_time",
         "Your cart has pre-order items. Please select a delivery time.")],
       false, none)
    | .given parsed? =>
      match validateDeliveryTime parsed? now with
      | some timeError => ([("requested_delivery_time", timeError)], false, none)
      | none => ([], true, parsed?)
  else ([], false, none)

/-- Receipt file validation (only for `online_transfer`). -/
def receiptStep (paymentMethod : JSString) (receipt? : Option ReceiptFile) :
    List (String × String) :=
  if paymentMethod = "online_transfer".toList then
    match receipt? with
    | none => [("payment_receipt", "Please upload your bank transfer screenshot.")]
    | some f =>
      if f.size = 0 then
        [("payment_receipt", "Please upload your bank transfer screenshot.")]
      else if ¬ (ALLOWED_RECEIPT_MIME.contains f.mime) then
        [("payment_receipt", "Only JPG, PNG, WebP, or PDF receipts are accepted.")]
      else if f.size > MAX_RECEIPT_BYTES then
        [("payment_receipt", "Receipt file must be under 5 MB.")]
      else []
  else []

/-- STEP 2 of processOrder: the field errors for the sanitised scalar form
fields (name, phone, address, payment method). -/
def baseFieldErrors (inp : ProcessOrderInput) : List (String × String) :=
  (if jsTrim inp.customer_name = [] ∨ (jsTrim inp.customer_name).length < 2 then
    [("customer_name", "Please enter your full name.")] else [])
  ++ (if ¬ (isValidPhone (jsTrim inp.customer_phone)) then
    [("customer_phone",
      "Please enter a valid Pakistani mobile number (e.g. 0312 3456789).")] else [])
  ++ (if jsTrim inp.address_line1 = [] then
    [("address_line1", "Street address is required.")] else [])
  ++ (if jsTrim inp.address_city = [] then
    [("address_city", "City is required.")] else [])
  ++ (if ¬ (ALLOWED_PAYMENT_METHODS.contains (jsTrim inp.payment_method)) then
    [("payment_method", "Please select a payment method.")] else [])

/-- All field errors of a submission whose cart parsed to `items`. -/
def allFieldErrors (inp : ProcessOrderInput) (now : Int)
    (items : List SerializedCartItem) : List (String × String) :=
  baseFieldErrors inp
    ++ (preorderStep (items.any (fun i => i.is_preorder)) inp.delivery_time now).1
    ++ receiptStep (jsTrim inp.payment_method) inp.payment_receipt

/-- STEP 4 of processOrder: upload the receipt when the payment is an online
transfer with a non-empty file; `none` = upload failed, `some url?` = the
`payment_receipt_url` to store. -/
def uploadStep (paymentMethod : JSString) (receipt? : Option ReceiptFile)
    (uploadedUrl : Option String) : Option (Option String) :=
  if paymentMethod = "online_transfer".toList then
    match receipt? with
    | some f =>
      if f.size > 0 then
        match uploadedUrl with
        | none => none
        | some url => some (some url)
      else some none
    | none => some none
  else some none

/-- STEP 3 + STEP 5 of processOrder: recompute subtotal and fragile fee
server-side from the raw line items and assemble the `orders` row
(`toFixed(2)` modelled by `round2`). -/
def buildOrderPayload (inp : ProcessOrderInput) (items : List SerializedCartItem)
    (receiptUrl : Option String) (isPre : Bool) (reqTime : Option Int) :
    OrderInsertModel :=
  { customer_name := jsTrim inp.customer_name
    customer_phone := jsTrim inp.customer_phone
    address_line1 := jsTrim inp.address_line1
    address_line2 := if jsTrim inp.address_line2 = [] then none else some (jsTrim inp.address_line2)
    address_city := jsTrim inp.address_city
    status := "pending"
    payment_method := jsTrim inp.payment_method
    payment_receipt_url := receiptUrl
    subtotal := round2 (serverSubtotal items)
    base_delivery_fee := round2 BASE_DELIVERY_FEE
    fragile_item_fee :=
      round2 (if items.any (fun i => i.product.is_fragile) then FRAGILE_ITEM_FEE else 0)
    is_preorder := isPre
    requested_delivery_time := reqTime }

/-- STEP 6 of processOrder: the `order_items` rows for an inserted order. -/
def buildItemPayloads (orderId : String) (items : List SerializedCartItem) :
    List OrderItemInsertModel :=
  items.map (fun item =>
    { order_id := orderId
      product_id := item.product.id
      quantity := item.quantity
      price_at_purchase := item.product.price
      custom_message :=
        match item.custom_message with
        | some m => if jsTrim m = [] then none else some (jsTrim m)
        | none => none })

/-- `processOrder`: parse/validate the submission, recompute all fees
server-side, and return the action result together with the `orders` and
`order_items` rows actually written. -/
def processOrder (inp : ProcessOrderInput) (now : Int) (db : DbOracles) :
    ProcResult × List OrderInsertModel × List OrderItemInsertModel :=
  match inp.cart_items with
  | none =>
    (.err "Your cart is empty. Please add items before checking out." [], [], [])
  | some items =>
    if items.length = 0 then
      (.err "Your cart is empty. Please add items before checking out." [], [], [])
    else
      if allFieldErrors inp now items ≠ [] then
        (.err "Please fix the errors below." (allFieldErrors inp now items), [], [])
      else
        match uploadStep (jsTrim inp.payment_method) inp.payment_receipt db.receiptUploadUrl with
        | none =>
          (.err "We could not save your payment receipt. Please try again." [], [], [])
        | some receiptUrl =>
          match db.insertedOrderId with
          | none =>
            (.err "We could not place your order. Please try again." [], [], [])
          | some orderId =>
            if db.itemsInsertOk then
              (.ok orderId,
               [buildOrderPayload inp items receiptUrl
                  (preorderStep (items.any (fun i => i.is_preorder)) inp.delivery_time now).2.1
                  (preorderStep (items.any (fun i => i.is_preorder)) inp.delivery_time now).2.2],
               buildItemPayloads orderId items)
            else
              -- order exists but items failed: customer still sees success
              (.ok orderId,
               [buildOrderPayload inp items receiptUrl
                  (preorderStep (items.any (fun i => i.is_preorder)) inp.delivery_time now).2.1
                  (preorderStep (items.any (fun i => i.is_preorder)) inp.delivery_time now).2.2],
               [])

-- ── actions/updateFragileFee.ts ─────────────────────────────────────

/-- The singleton `settings` row (NUMERIC values already parsed). -/
structure SettingsRow where
  current_delivery_fee : ℚ
  current_fragile_fee : ℚ

/-- `getSettings`: read the singleton settings row, falling back to the
compile-time constants (150, 100) when the row is unavailable. -/
def getSettings (row? : Option SettingsRow) : ℚ × ℚ :=
  match row? with
  | none => (150, 100)
  | some row => (row.current_delivery_fee, row.current_fragile_fee)

-- ── app/checkout/page.tsx: post-submission cart effect ──────────────

/-- `CheckoutForm.handleSubmit` success continuation: on a successful
`processOrder` the form calls the store's `clearCart()` — for the standard
flow and for EACH batch of the split flow alike. -/
def cartAfterSuccessfulSubmit (items : List CartItem) : List CartItem :=
  clearCart items

-- ── Concrete sample data (used by the witness instances) ────────────

/-- A sample catalog product. -/
def sampleProduct (pid price : String) (fragile : Bool) : Product :=
  { id := pid.toList
    name := "Chocolate Cake".toList
    description := none
    category := "cakes".toList
    price := price.toList
    image_url := none
    is_available := true
    available_from := none
    available_until := none
    is_fragile := fragile
    requires_custom_text := false }

/-- A sample cart line. -/
def sampleCartItem (pid price : String) (fragile preorder : Bool) (qty : Int)
    (msg? : Option String) : CartItem :=
  { cartItemId := buildCartItemId (pid.toList) (msg?.map String.toList)
    product := sampleProduct pid price fragile
    quantity := qty
    custom_message := msg?.map String.toList
    is_fragile := fragile
    is_preorder := preorder }

def instantLine : CartItem := sampleCartItem "p1" "100.00" false false 1 none
def preorderLine : CartItem := sampleCartItem "p2" "50.00" true true 2 none

/-- A cart line whose parsed price has a sub-cent fraction. -/
def subCentLine : CartItem := sampleCartItem "p3" "0.005" false false 1 none

/-- A cart line with a malformed (unparseable) price string. -/
def malformedLine : CartItem := sampleCartItem "p9" "abc" false false 2 none

/-- A sample serialized checkout item. -/
def sampleSerialized (pid price : String) (fragile : Bool) (qty : Int) :
    SerializedCartItem :=
  { product := { id := pid.toList, name := "item".toList,
                 price := price.toList, is_fragile := fragile }
    quantity := qty
    custom_message := none
    is_preorder := false }

/-- The worked example of the spec: a fragile Rs. 100 item and a non-fragile
Rs. 50 item, one unit each. -/
def exampleItems : List SerializedCartItem :=
  [sampleSerialized "p1" "100.00" true 1, sampleSerialized "p2" "50.00" false 1]

/-- A fully valid cash-on-delivery submission carrying `exampleItems`. -/
def exampleInput : ProcessOrderInput :=
  { customer_name := "Test User".toList
    customer_phone := "0312 3456789".toList
    address_line1 := "12 Main Road".toList
    address_line2 := "".toList
    address_city := "Lahore".toList
    payment_method := "cash_on_delivery".toList
    delivery_time := .empty
    cart_items := some exampleItems
    payment_receipt := none }

/-- Oracles for a fully successful persistence round. -/
def happyDb : DbOracles :=
  { receiptUploadUrl := some "https://cdn.example/receipt.png"
    insertedOrderId := some "order-1"
    itemsInsertOk := true }

/-- A sample `addItem` payload matching `instantLine`'s identity. -/
def samplePayload : AddItemPayload :=
  { product := sampleProduct "p1" "100.00" false
    quantity? := some 3
    custom_message := none
    is_preorder? := none }

-- ── Derived predicates and spec-side definitions ─────────────────────

/-- The identity an `addItem` payload resolves to. -/
def payloadId (p : AddItemPayload) : JSString :=
  buildCartItemId p.product.id p.custom_message

/-- Cart identity invariant: line-item identities are pairwise distinct. -/
def uniqueIds (items : List CartItem) : Prop :=
  (items.map (fun i => i.cartItemId)).Nodup

/-- Stored-key invariant: every line's `cartItemId` is recomputable from its
stored product id and stored custom message. -/
def wellFormedIds (items : List CartItem) : Prop :=
  ∀ it ∈ items, it.cartItemId = buildCartItemId it.product.id it.custom_message

/-- Modelled from the spec: the raw (unrounded) cart subtotal
`Σ(parsedUnitPrice × quantity)`, with an unparseable price contributing 0.
Used to compare the source computations against the claim C8 wording. -/
def specCartRawSubtotal (items : List CartItem) : ℚ :=
  (items.map cartItemContribution).sum

/-- Contribution of one serialized item to the server-side subtotal. -/
def serializedContribution (item : SerializedCartItem) : ℚ :=
  match jsParseFloat item.product.price with
  | none => 0
  | some p => p * (item.quantity : ℚ)

/-- Modelled from the spec: the raw server-side subtotal
`Σ(parsedPrice(item) × item.quantity)` with parse failures defaulting to 0. -/
def specServerRawSubtotal (items : List SerializedCartItem) : ℚ :=
  (items.map serializedContribution).sum

-- ── Helper lemmas ────────────────────────────────────────────────────

theorem dropWhile_eq_self_of_head (p : Char → Bool) (x : Char) (xs : List Char)
    (h : List.dropWhile p (x :: xs) = x :: xs) : p x = false := by
  by_cases hx : p x
  · exfalso
    rw [List.dropWhile_cons, if_pos hx] at h
    have hle : (List.dropWhile p xs).length ≤ xs.length :=
      (List.dropWhile_suffix p).sublist.length_le
    rw [h] at hle
    simp at hle
  · simpa using hx

/-- `trim` is idempotent: trimming an already-trimmed string is a no-op. -/
theorem jsTrim_idem (s : JSString) : jsTrim (jsTrim s) = jsTrim s := by
  unfold jsTrim
  set ws := Char.isWhitespace with hws
  set a := s.dropWhile ws with hadef
  have ha : a.dropWhile ws = a := List.dropWhile_idempotent ws s
  obtain ⟨t, ht⟩ := List.rdropWhile_prefix ws a
  have hleft : (a.rdropWhile ws).dropWhile ws = a.rdropWhile ws := by
    cases hb : a.rdropWhile ws with
    | nil => simp
    | cons x xs =>
      have hax : a = x :: (xs ++ t) := by
        rw [← ht, hb]; simp
      have hx : ws x = false := by
        apply dropWhile_eq_self_of_head ws x (xs ++ t)
        rw [← hax]; exact ha
      simp [List.dropWhile_cons, hx]
  rw [hleft]
  exact List.rdropWhile_idempotent ws a

/-- The stored message `custom_message?.trim() || undefined` keys to the same
identity as the original payload message. -/
theorem buildCartItemId_stored_message (pid : JSString) (msg? : Option JSString) :
    buildCartItemId pid
      (match msg? with
       | some m => if jsTrim m = [] then none else some (jsTrim m)
       | none => none) = buildCartItemId pid msg? := by
  cases msg? with
  | none => rfl
  | some m =>
    by_cases h : jsTrim m = []
    · simp only [h, if_pos]
      simp [buildCartItemId, h]
      rfl
    · simp only [if_neg h]
      simp [buildCartItemId, jsTrim_idem]

theorem foldl_add_eq_sum {α : Type} (f : α → ℚ) (l : List α) (init : ℚ) :
    l.foldl (fun s x => s + f x) init = init + (l.map f).sum := by
  induction l generalizing init with
  | nil => simp
  | cons x xs ih => simp [ih, add_assoc]

theorem splitLoop_eq_filters (items : List CartItem) :
    splitLoop items =
      (items.filter (fun i => !i.is_preorder), items.filter (fun i => i.is_preorder)) := by
  induction items with
  | nil => rfl
  | cons item rest ih =>
    cases h : item.is_preorder <;> simp [splitLoop, ih, h, List.filter_cons]

-- ── C2: splitCartIntoTwo is an order-preserving exact partition ──────

/-- C2: `splitCartIntoTwo` routes every `is_preorder = false` item into
`instantItems` and every `is_preorder = true` item into `preorderItems`;
the outputs are the order-preserving filters of the input (hence no item is
dropped, duplicated or mutated and the input is untouched), the lengths add
up to the input length, the concatenation is a permutation of the input
(multiset equality), and the two outputs are disjoint. -/
theorem splitCartIntoTwo_exact_partition :
    ∀ items : List CartItem,
      (splitCartIntoTwo items).instantItems = items.filter (fun i => !i.is_preorder) ∧
      (splitCartIntoTwo items).preorderItems = items.filter (fun i => i.is_preorder) ∧
      (splitCartIntoTwo items).instantItems.length +
        (splitCartIntoTwo items).preorderItems.length = items.length ∧
      ((splitCartIntoTwo items).instantItems ++
        (splitCartIntoTwo items).preorderItems).Perm items ∧
      ∀ i ∈ (splitCartIntoTwo items).instantItems,
        i ∉ (splitCartIntoTwo items).preorderItems := by
  intro items
  have hsplit := splitLoop_eq_filters items
  have h1 : (splitCartIntoTwo items).instantItems = items.filter (fun i => !i.is_preorder) := by
    simp [splitCartIntoTwo, hsplit]
  have h2 : (splitCartIntoTwo items).preorderItems = items.filter (fun i => i.is_preorder) := by
    simp [splitCartIntoTwo, hsplit]
  have hperm : ((splitCartIntoTwo items).instantItems ++
      (splitCartIntoTwo items).preorderItems).Perm items := by
    rw [h1, h2]
    have := List.filter_append_perm (fun i : CartItem => !i.is_preorder) items
    simpa using this
  refine ⟨h1, h2, ?_, hperm, ?_⟩
  · have := hperm.length_eq
    simpa using this
  · intro i hins hpre
    rw [h1] at hins
    rw [h2] at hpre
    have hfalse : i.is_preorder = false := by simpa using (List.mem_filter.mp hins).2
    have htrue : i.is_preorder = true := by simpa using (List.mem_filter.mp hpre).2
    rw [hfalse] at htrue
    exact Bool.false_ne_true htrue

/-- C2 witness: instantiate the partition contract on a concrete two-item
mixed cart and discharge the disjointness hypothesis at `instantLine`. -/
theorem splitCartIntoTwo_exact_partition_witness :
    instantLine ∈ (splitCartIntoTwo [instantLine, preorderLine]).instantItems ∧
    instantLine ∉ (splitCartIntoTwo [instantLine, preorderLine]).preorderItems := by
  refine ⟨?_, ?_⟩
  · rw [(splitCartIntoTwo_exact_partition [instantLine, preorderLine]).1]
    decide
  · exact (splitCartIntoTwo_exact_partition [instantLine, preorderLine]).2.2.2.2
      instantLine (by rw [(splitCartIntoTwo_exact_partition [instantLine, preorderLine]).1]; decide)

-- ── C5: first successful batch submission clears the whole cart ──────

/-- C5: in the split (mixed-cart) checkout flow, the form's success
continuation runs the store's full `clearCart` after the FIRST successful
batch submission, so the entire cart — including the not-yet-submitted
second batch's pre-order items — is emptied before the second batch is
submitted. -/
theorem first_batch_success_clears_entire_cart :
    ∀ items : List CartItem,
      cartAfterSuccessfulSubmit items = [] ∧
      ∀ i ∈ (splitCartIntoTwo items).preorderItems, i ∉ cartAfterSuccessfulSubmit items := by
  intro items
  refine ⟨rfl, ?_⟩
  intro i _ hmem
  simp [cartAfterSuccessfulSubmit, clearCart] at hmem

/-- C5 witness: the pre-order line of a concrete mixed cart is gone after the
instant batch's successful submission. -/
theorem first_batch_success_clears_entire_cart_witness :
    preorderLine ∉ cartAfterSuccessfulSubmit [instantLine, preorderLine] :=
  (first_batch_success_clears_entire_cart [instantLine, preorderLine]).2 preorderLine
    (by decide)

-- ── C7: empty or unparseable cart rejected before any fee work ───────

/-- C7: when the submitted cart fails to parse as an array or parses to an
empty array, `processOrder` returns the user-facing empty-cart failure and
writes no order row and no order-item row. -/
theorem empty_cart_rejected_without_writes :
    ∀ (inp : ProcessOrderInput) (now : Int) (db : DbOracles),
      (inp.cart_items = none ∨ inp.cart_items = some []) →
      processOrder inp now db =
        (.err "Your cart is empty. Please add items before checking out." [], [], []) := by
  intro inp now db h
  rcases h with h | h <;> simp [processOrder, h]

/-- C7 witness: a concrete submission with an empty cart is rejected with the
empty-cart message and zero persisted rows. -/
theorem empty_cart_rejected_without_writes_witness :
    processOrder { exampleInput with cart_items := some [] } 0 happyDb =
      (.err "Your cart is empty. Please add items before checking out." [], [], []) :=
  empty_cart_rejected_without_writes { exampleInput with cart_items := some [] } 0 happyDb
    (Or.inr rfl)

-- ── C6: delivery-time validation ─────────────────────────────────────

/-- C6 counterexample: a request at exactly 23:00 local time (and far enough
in the future) is ACCEPTED by `validateDeliveryTime`, although the claim's
half-open window [10:00, 23:00) demands rejection: the code's check is
`totalMins > closeMins`, which is inclusive at the closing minute. -/
theorem delivery_time_accepted_at_closing_minute :
    validateDeliveryTime (some 169200000) 0 = none ∧
    timeOfDayMins 169200000 = 23 * 60 := by
  constructor
  · rfl
  · decide

/-- C6 (amended): `validateDeliveryTime` accepts iff the timestamp parses,
is at least 30 minutes after `now`, and its local time-of-day lies in the
CLOSED window [10:00, 23:00] (the closing minute included); equivalently it
rejects iff parsing fails, the lead time is violated, or the time-of-day is
outside that closed window.  The claim's three concrete instances hold:
10 minutes out is rejected, 35 minutes out at 02:00 is rejected, 35 minutes
out at 14:00 is accepted. -/
theorem validateDeliveryTime_accepts_iff :
    (∀ (requested? : Option Int) (now : Int),
       validateDeliveryTime requested? now = none ↔
         ∃ t, requested? = some t ∧
           now + PREORDER_MIN_LEAD_MS ≤ t ∧
           10 * 60 ≤ timeOfDayMins t ∧ timeOfDayMins t ≤ 23 * 60) ∧
    validateDeliveryTime (some (10 * 60000)) 0 ≠ none ∧
    validateDeliveryTime (some (120 * 60000)) (85 * 60000) ≠ none ∧
    validateDeliveryTime (some (840 * 60000)) (805 * 60000) = none := by
  refine ⟨?_, by decide, by decide, by decide⟩
  intro requested? now
  cases requested? with
  | none => simp [validateDeliveryTime]
  | some t =>
    simp only [validateDeliveryTime, PREORDER_WINDOW]
    split_ifs with h1 h2
    · constructor
      · intro h; exact absurd h (by simp)
      · rintro ⟨t', ht', hlead, _, _⟩
        obtain rfl : t = t' := by injection ht'
        exact absurd h1 (by omega)
    · constructor
      · intro h; exact absurd h (by simp)
      · rintro ⟨t', ht', _, hlo, hhi⟩
        obtain rfl : t = t' := by injection ht'
        rcases h2 with h2 | h2 <;> omega
    · simp only [not_or, not_lt] at h2
      constructor
      · intro _
        exact ⟨t, rfl, by omega, by omega, by omega⟩
      · intro _
        rfl

/-- C6 witness: instantiate the acceptance characterization at the concrete
14:00 request 35 minutes in the future. -/
theorem validateDeliveryTime_accepts_iff_witness :
    validateDeliveryTime (some (840 * 60000)) (805 * 60000) = none :=
  (validateDeliveryTime_accepts_iff.1 (some (840 * 60000)) (805 * 60000)).mpr
    ⟨840 * 60000, rfl, by decide, by decide, by decide⟩

-- ── C8: subtotal computations ────────────────────────────────────────

theorem parse_100_00 : jsParseFloat ['1', '0', '0', '.', '0', '0'] = some 100 := by
  have h : jsParseFloat ['1', '0', '0', '.', '0', '0'] =
      some (((100 : ℕ) : ℚ) + ((0 : ℕ) : ℚ) / 10 ^ 2) := rfl
  rw [h]; norm_num

theorem parse_50_00 : jsParseFloat ['5', '0', '.', '0', '0'] = some 50 := by
  have h : jsParseFloat ['5', '0', '.', '0', '0'] =
      some (((50 : ℕ) : ℚ) + ((0 : ℕ) : ℚ) / 10 ^ 2) := rfl
  rw [h]; norm_num

theorem parse_0_005 : jsParseFloat ['0', '.', '0', '0', '5'] = some (1 / 200) := by
  have h : jsParseFloat ['0', '.', '0', '0', '5'] =
      some (((0 : ℕ) : ℚ) + ((5 : ℕ) : ℚ) / 10 ^ 3) := rfl
  rw [h]; norm_num

theorem serverSubtotal_eq_sum (items : List SerializedCartItem) :
    serverSubtotal items = specServerRawSubtotal items := by
  unfold serverSubtotal specServerRawSubtotal
  exact (foldl_add_eq_sum serializedContribution items 0).trans (zero_add _)

theorem calcSubtotal_eq_round2_sum (items : List CartItem) :
    calcSubtotalForItems items = round2 (specCartRawSubtotal items) := by
  unfold calcSubtotalForItems specCartRawSubtotal
  rw [foldl_add_eq_sum cartItemContribution items 0, zero_add]

/-- C8 counterexample: on a line whose parsed price is 0.005, the cart
subtotal helper returns `Math.round(0.5)/100 = 0.01`, not the raw sum
`0.005` — the helper rounds to the cent boundary, so it is NOT equal to
`Σ(parsedUnitPrice × quantity)` as literally claimed. -/
theorem calcSubtotal_differs_from_raw_sum :
    calcSubtotalForItems [subCentLine] ≠ specCartRawSubtotal [subCentLine] := by
  rw [calcSubtotal_eq_round2_sum]
  have h : specCartRawSubtotal [subCentLine] = 1 / 200 := by
    simp [specCartRawSubtotal, cartItemContribution, subCentLine, sampleCartItem,
      sampleProduct, parse_0_005]
  rw [h]
  norm_num [round2, jsRound]

/-- C8 (amended): the server-side fee calculation equals the raw sum
`Σ(parsedPrice × quantity)` exactly, while the cart/partition subtotal helper
equals that sum rounded to 2 decimal places (`Math.round(raw*100)/100`); in
both, an item whose price fails to parse contributes exactly 0, and the
computations are total functions (never throw) — e.g. `"abc"` parses to NaN. -/
theorem subtotal_sum_with_malformed_default_zero :
    (∀ items : List CartItem,
       calcSubtotalForItems items = round2 (specCartRawSubtotal items)) ∧
    (∀ items : List SerializedCartItem,
       serverSubtotal items = specServerRawSubtotal items) ∧
    (∀ item : CartItem,
       jsParseFloat item.product.price = none → cartItemContribution item = 0) ∧
    (∀ item : SerializedCartItem,
       jsParseFloat item.product.price = none → serializedContribution item = 0) ∧
    jsParseFloat ("abc".toList) = none := by
  refine ⟨calcSubtotal_eq_round2_sum, serverSubtotal_eq_sum, ?_, ?_, rfl⟩
  · intro item h; simp [cartItemContribution, h]
  · intro item h; simp [serializedContribution, h]

/-- C8 witness: the malformed-price line contributes exactly 0. -/
theorem subtotal_sum_with_malformed_default_zero_witness :
    jsParseFloat malformedLine.product.price = none ∧
    cartItemContribution malformedLine = 0 :=
  ⟨rfl, subtotal_sum_with_malformed_default_zero.2.2.1 malformedLine rfl⟩

-- ── C1 / C4: the fee calculator and the persisted order row ──────────

/-- Every `orders` row that `processOrder` writes carries the server-derived
fee columns: rounded recomputed subtotal, the static base delivery fee, and
the flat fragile surcharge iff any charged item is fragile. -/
theorem processOrder_rows_fields (inp : ProcessOrderInput) (now : Int) (db : DbOracles) :
    ∀ order ∈ (processOrder inp now db).2.1,
      ∃ items, inp.cart_items = some items ∧
        order.subtotal = round2 (serverSubtotal items) ∧
        order.base_delivery_fee = round2 BASE_DELIVERY_FEE ∧
        order.fragile_item_fee =
          round2 (if items.any (fun i => i.product.is_fragile)
                  then FRAGILE_ITEM_FEE else 0) := by
  intro order hmem
  unfold processOrder at hmem
  split at hmem
  · simp at hmem
  · rename_i items heq
    split at hmem
    · simp at hmem
    · split at hmem
      · simp at hmem
      · split at hmem
        · simp at hmem
        · split at hmem
          · simp at hmem
          · split at hmem <;>
            · simp only [List.mem_singleton] at hmem
              subst hmem
              exact ⟨items, heq, rfl, rfl, rfl⟩

theorem round2_BASE : round2 BASE_DELIVERY_FEE = BASE_DELIVERY_FEE := by
  norm_num [round2, jsRound, BASE_DELIVERY_FEE]

theorem round2_FRAGILE : round2 FRAGILE_ITEM_FEE = FRAGILE_ITEM_FEE := by
  norm_num [round2, jsRound, FRAGILE_ITEM_FEE]

theorem round2_zero : round2 0 = 0 := by
  norm_num [round2, jsRound]

theorem serverSubtotal_exampleItems : serverSubtotal exampleItems = 150 := by
  rw [serverSubtotal_eq_sum]
  simp [specServerRawSubtotal, exampleItems, sampleSerialized, serializedContribution,
    parse_100_00, parse_50_00]
  norm_num

/-- C1: for every submission whose charged line items are non-empty, each
persisted order row has `fragile_item_fee` equal to the flat surcharge
constant when ANY item is fragile and 0 otherwise (a per-order flag, so it
cannot scale with the number of fragile items), `base_delivery_fee` equal to
the delivery constant, `subtotal` equal to the rounded server-recomputed
subtotal, and `total_amount` (the generated column) equal to
subtotal + deliveryFee + fragileFee; on the spec's worked example the
persisted total is 400.00. -/
theorem processOrder_fee_calculation :
    (∀ (inp : ProcessOrderInput) (now : Int) (db : DbOracles)
       (items : List SerializedCartItem),
       inp.cart_items = some items → items ≠ [] →
       ∀ order ∈ (processOrder inp now db).2.1,
         order.fragile_item_fee =
           (if items.any (fun i => i.product.is_fragile) then FRAGILE_ITEM_FEE else 0) ∧
         order.base_delivery_fee = BASE_DELIVERY_FEE ∧
         order.subtotal = round2 (serverSubtotal items) ∧
         totalAmount order = order.subtotal + order.base_delivery_fee + order.fragile_item_fee) ∧
    (processOrder exampleInput 0 happyDb).2.1.map totalAmount = [400] := by
  constructor
  · intro inp now db items hcart _ order hmem
    obtain ⟨items', hcart', hsub, hbase, hfrag⟩ := processOrder_rows_fields inp now db order hmem
    rw [hcart] at hcart'
    obtain rfl : items = items' := by injection hcart'
    refine ⟨?_, ?_, hsub, rfl⟩
    · rw [hfrag]
      by_cases hf : items.any (fun i => i.product.is_fragile) <;>
        simp [hf, round2_FRAGILE, round2_zero]
    · rw [hbase, round2_BASE]
  · have hform : (processOrder exampleInput 0 happyDb).2.1.map totalAmount =
        [round2 (serverSubtotal exampleItems) + round2 BASE_DELIVERY_FEE +
          round2 FRAGILE_ITEM_FEE] := rfl
    rw [hform, serverSubtotal_exampleItems, round2_BASE, round2_FRAGILE]
    norm_num [round2, jsRound, BASE_DELIVERY_FEE, FRAGILE_ITEM_FEE]

/-- C1 witness: instantiate the fee equations on the worked example's
persisted row. -/
theorem processOrder_fee_calculation_witness :
    (buildOrderPayload exampleInput exampleItems none false none).base_delivery_fee =
      BASE_DELIVERY_FEE :=
  (processOrder_fee_calculation.1 exampleInput 0 happyDb exampleItems rfl
    (by decide)
    (buildOrderPayload exampleInput exampleItems none false none)
    (by rw [show (processOrder exampleInput 0 happyDb).2.1 =
          [buildOrderPayload exampleInput exampleItems none false none] from rfl]
        exact List.mem_singleton_self _)).2.1

/-- C4: the delivery fee actually charged and persisted by `processOrder` is
ALWAYS the static constant 150 — the admin-editable settings row is read by
`getSettings` (with fallback 150) but never consulted by the order path, so
an available setting of 200 diverges from the charged fee. -/
theorem processOrder_delivery_fee_ignores_settings :
    (∀ (inp : ProcessOrderInput) (now : Int) (db : DbOracles),
       ∀ order ∈ (processOrder inp now db).2.1, order.base_delivery_fee = 150) ∧
    (getSettings (some { current_delivery_fee := 200, current_fragile_fee := 100 })).1 = 200 ∧
    (150 : ℚ) ≠ 200 := by
  refine ⟨?_, rfl, by norm_num⟩
  intro inp now db order hmem
  obtain ⟨items, -, -, hbase, -⟩ := processOrder_rows_fields inp now db order hmem
  rw [hbase, round2_BASE]
  rfl

/-- C4 witness: the worked example's persisted row charges 150 even though a
settings row with delivery fee 200 is available. -/
theorem processOrder_delivery_fee_ignores_settings_witness :
    (buildOrderPayload exampleInput exampleItems none false none).base_delivery_fee = 150 :=
  processOrder_delivery_fee_ignores_settings.1 exampleInput 0 happyDb
    (buildOrderPayload exampleInput exampleItems none false none)
    (by rw [show (processOrder exampleInput 0 happyDb).2.1 =
          [buildOrderPayload exampleInput exampleItems none false none] from rfl]
        exact List.mem_singleton_self _)

-- ── Cart mutation lemmas ─────────────────────────────────────────────

theorem addQty_none_iff (incomingId : JSString) (qty : Int) (items : List CartItem) :
    addQtyToFirstMatch incomingId qty items = none ↔
      ∀ it ∈ items, it.cartItemId ≠ incomingId := by
  induction items with
  | nil => simp [addQtyToFirstMatch]
  | cons item rest ih =>
    by_cases h : item.cartItemId = incomingId
    · simp only [addQtyToFirstMatch, if_pos h]
      constructor
      · intro habs; exact absurd habs (by simp)
      · intro hall; exact absurd h (hall item (by simp))
    · simp only [addQtyToFirstMatch, if_neg h]
      cases hr : addQtyToFirstMatch incomingId qty rest with
      | some rest' =>
        constructor
        · intro habs; exact absurd habs (by simp)
        · intro hall
          have hnone : addQtyToFirstMatch incomingId qty rest = none :=
            ih.mpr (fun x hx => hall x (by simp [hx]))
          rw [hnone] at hr
          exact absurd hr (by simp)
      | none =>
        constructor
        · intro _ x hx
          rcases List.mem_cons.mp hx with rfl | hx2
          · exact h
          · exact ih.mp hr x hx2
        · intro _; rfl

theorem addQty_some_decomp (incomingId : JSString) (qty : Int) :
    ∀ (pre : List CartItem) (it : CartItem) (post : List CartItem),
      (∀ j ∈ pre, j.cartItemId ≠ incomingId) → it.cartItemId = incomingId →
      addQtyToFirstMatch incomingId qty (pre ++ it :: post) =
        some (pre ++ { it with quantity := it.quantity + qty } :: post) := by
  intro pre
  induction pre with
  | nil =>
    intro it post _ hit
    simp [addQtyToFirstMatch, hit]
  | cons j pre' ih =>
    intro it post hpre hit
    have hj : j.cartItemId ≠ incomingId := hpre j (by simp)
    simp only [List.cons_append, addQtyToFirstMatch, if_neg hj, List.append_eq]
    rw [ih it post (fun x hx => hpre x (by simp [hx])) hit]

theorem addQty_ids (incomingId : JSString) (qty : Int) :
    ∀ (items items' : List CartItem),
      addQtyToFirstMatch incomingId qty items = some items' →
      items'.map (fun i => i.cartItemId) = items.map (fun i => i.cartItemId) := by
  intro items
  induction items with
  | nil => intro items' h; simp [addQtyToFirstMatch] at h
  | cons item rest ih =>
    intro items' h
    simp only [addQtyToFirstMatch] at h
    by_cases hc : item.cartItemId = incomingId
    · rw [if_pos hc] at h
      obtain rfl : _ = items' := by injection h
      simp
    · rw [if_neg hc] at h
      cases hr : addQtyToFirstMatch incomingId qty rest with
      | none => rw [hr] at h; exact absurd h (by simp)
      | some rest' =>
        rw [hr] at h
        obtain rfl : item :: rest' = items' := by injection h
        simp [ih rest' hr]

theorem addQty_wellFormed (incomingId : JSString) (qty : Int) :
    ∀ (items items' : List CartItem),
      wellFormedIds items →
      addQtyToFirstMatch incomingId qty items = some items' →
      wellFormedIds items' := by
  intro items
  induction items with
  | nil => intro items' _ h; simp [addQtyToFirstMatch] at h
  | cons item rest ih =>
    intro items' hwf h
    simp only [addQtyToFirstMatch] at h
    by_cases hc : item.cartItemId = incomingId
    · rw [if_pos hc] at h
      obtain rfl : _ = items' := by injection h
      intro it hit
      rcases List.mem_cons.mp hit with rfl | hmem
      · exact hwf item (by simp)
      · exact hwf it (by simp [hmem])
    · rw [if_neg hc] at h
      cases hr : addQtyToFirstMatch incomingId qty rest with
      | none => rw [hr] at h; exact absurd h (by simp)
      | some rest' =>
        rw [hr] at h
        obtain rfl : item :: rest' = items' := by injection h
        intro it hit
        rcases List.mem_cons.mp hit with rfl | hmem
        · exact hwf it (by simp)
        · exact ih rest' (fun x hx => hwf x (by simp [hx])) hr it hmem

theorem addItem_uniqueIds (items : List CartItem) (p : AddItemPayload)
    (h : uniqueIds items) : uniqueIds (addItem items p) := by
  cases hm : addQtyToFirstMatch (buildCartItemId p.product.id p.custom_message)
      (p.quantity?.getD 1) items with
  | some merged =>
    simp only [addItem, hm]
    unfold uniqueIds at h ⊢
    rw [addQty_ids _ _ items merged hm]
    exact h
  | none =>
    simp only [addItem, hm]
    unfold uniqueIds at h ⊢
    rw [List.map_append, List.nodup_append]
    refine ⟨h, by simp, ?_⟩
    intro a ha hb
    simp only [List.map_cons, List.map_nil, List.mem_singleton] at hb
    obtain ⟨it, hit, rfl⟩ := List.mem_map.mp ha
    exact (addQty_none_iff _ _ items |>.mp hm it hit) hb

theorem filter_uniqueIds (items : List CartItem) (pred : CartItem → Bool)
    (h : uniqueIds items) : uniqueIds (items.filter pred) := by
  unfold uniqueIds at h ⊢
  exact h.sublist (List.Sublist.map _ (List.filter_sublist items))

theorem filter_wellFormed (items : List CartItem) (pred : CartItem → Bool)
    (h : wellFormedIds items) : wellFormedIds (items.filter pred) :=
  fun it hit => h it (List.mem_of_mem_filter hit)

theorem update_map_ids (items : List CartItem) (cid : JSString) (q : Int) :
    (items.map (fun item =>
      if item.cartItemId = cid then { item with quantity := q } else item)).map
        (fun i => i.cartItemId) = items.map (fun i => i.cartItemId) := by
  rw [List.map_map]
  apply List.map_congr_left
  intro it _
  by_cases h : it.cartItemId = cid <;> simp [h, Function.comp]

theorem applyOp_uniqueIds (items : List CartItem) (op : CartOp)
    (h : uniqueIds items) : uniqueIds (applyOp items op) := by
  cases op with
  | add p => exact addItem_uniqueIds items p h
  | remove cid => exact filter_uniqueIds items _ h
  | update p =>
    show uniqueIds (updateQuantity items p)
    unfold updateQuantity
    by_cases hq : p.quantity ≤ 0
    · rw [if_pos hq]; exact filter_uniqueIds items _ h
    · rw [if_neg hq]
      unfold uniqueIds at h ⊢
      rw [update_map_ids]
      exact h
  | removeAllByProduct pid => exact filter_uniqueIds items _ h
  | clear => simp [applyOp, clearCart, uniqueIds]

theorem foldl_applyOp_uniqueIds :
    ∀ (ops : List CartOp) (items : List CartItem),
      uniqueIds items → uniqueIds (ops.foldl applyOp items) := by
  intro ops
  induction ops with
  | nil => intro items h; exact h
  | cons op rest ih =>
    intro items h
    rw [List.foldl_cons]
    exact ih (applyOp items op) (applyOp_uniqueIds items op h)

theorem addItem_same_identity (it : CartItem) (p : AddItemPayload)
    (h : payloadId p = it.cartItemId) :
    addItem [it] p = [{ it with quantity := it.quantity + p.quantity?.getD 1 }] := by
  have hm : addQtyToFirstMatch (buildCartItemId p.product.id p.custom_message)
      (p.quantity?.getD 1) [it] =
      some [{ it with quantity := it.quantity + p.quantity?.getD 1 }] := by
    have h' : it.cartItemId = buildCartItemId p.product.id p.custom_message := h.symm
    unfold addQtyToFirstMatch
    rw [if_pos h']
  simp only [addItem, hm]

theorem foldl_addItem_accumulates (k : JSString) :
    ∀ (ps : List AddItemPayload) (it : CartItem),
      it.cartItemId = k → (∀ p ∈ ps, payloadId p = k) →
      ps.foldl addItem [it] =
        [{ it with quantity := it.quantity + (ps.map (fun p => p.quantity?.getD 1)).sum }] := by
  intro ps
  induction ps with
  | nil =>
    intro it _ _
    simp
  | cons p ps' ih =>
    intro it hit hall
    rw [List.foldl_cons,
      addItem_same_identity it p ((hall p (by simp)).trans hit.symm),
      ih { it with quantity := it.quantity + p.quantity?.getD 1 } hit
        (fun x hx => hall x (by simp [hx]))]
    simp [add_assoc]

-- ── C3: identity invariant and quantity accumulation ─────────────────

/-- C3: starting from the empty cart, every sequence of store operations
maintains at most one CartItem per identity (the mapped `cartItemId`s stay
pairwise distinct); and a non-empty sequence of `addItem` calls that all
resolve to the same identity `k` produces exactly one line, carrying that
identity, whose quantity is the sum of the calls' quantities. -/
theorem cart_merges_same_identity :
    (∀ ops : List CartOp, uniqueIds (ops.foldl applyOp [])) ∧
    (∀ (ps : List AddItemPayload) (k : JSString),
       ps ≠ [] → (∀ p ∈ ps, payloadId p = k) →
       ∃ it, ps.foldl addItem [] = [it] ∧ it.cartItemId = k ∧
         it.quantity = (ps.map (fun p => p.quantity?.getD 1)).sum) := by
  constructor
  · intro ops
    exact foldl_applyOp_uniqueIds ops [] (by simp [uniqueIds])
  · intro ps k hne hall
    cases ps with
    | nil => exact absurd rfl hne
    | cons p ps' =>
      rw [List.foldl_cons]
      have h1 : addItem [] p =
          [{ cartItemId := buildCartItemId p.product.id p.custom_message
             product := p.product
             quantity := p.quantity?.getD 1
             custom_message :=
               match p.custom_message with
               | some m => if jsTrim m = [] then none else some (jsTrim m)
               | none => none
             is_fragile := p.product.is_fragile
             is_preorder := p.is_preorder?.getD false }] := rfl
      rw [h1, foldl_addItem_accumulates k ps' _ (hall p (by simp))
        (fun x hx => hall x (by simp [hx]))]
      refine ⟨_, rfl, hall p (by simp), ?_⟩
      simp

/-- C3 witness: two same-identity adds of quantity 3 each yield one line of
quantity 6. -/
theorem cart_merges_same_identity_witness :
    ∃ it, [samplePayload, samplePayload].foldl addItem [] = [it] ∧
      it.cartItemId = payloadId samplePayload ∧
      it.quantity = ([samplePayload, samplePayload].map
        (fun p => p.quantity?.getD 1)).sum :=
  cart_merges_same_identity.2 [samplePayload, samplePayload] (payloadId samplePayload)
    (by simp)
    (by intro p hp; rcases List.mem_cons.mp hp with rfl | hp2
        · rfl
        · rcases List.mem_cons.mp hp2 with rfl | hp3
          · rfl
          · exact absurd hp3 (List.not_mem_nil p))

-- ── C9: merge path is a pure quantity increment ──────────────────────

/-- C9: when a line with the payload's identity already exists (and is the
first such line), `addItem` returns the same list with ONLY that line's
quantity incremented by the call's quantity — its `is_preorder`,
`is_fragile`, product snapshot and custom message are untouched, and every
other line and the relative order are unchanged. -/
theorem addItem_merge_changes_only_quantity :
    ∀ (pre : List CartItem) (it : CartItem) (post : List CartItem) (p : AddItemPayload),
      it.cartItemId = payloadId p →
      (∀ j ∈ pre, j.cartItemId ≠ payloadId p) →
      addItem (pre ++ it :: post) p =
        pre ++ { it with quantity := it.quantity + p.quantity?.getD 1 } :: post := by
  intro pre it post p hit hpre
  have hm := addQty_some_decomp (buildCartItemId p.product.id p.custom_message)
    (p.quantity?.getD 1) pre it post hpre hit
  simp only [addItem, hm]

/-- C9 witness: merging into a concrete two-line cart updates only the
matching line's quantity. -/
theorem addItem_merge_changes_only_quantity_witness :
    addItem ([preorderLine] ++ instantLine :: []) samplePayload =
      [preorderLine] ++
        { instantLine with quantity :=
            instantLine.quantity + samplePayload.quantity?.getD 1 } :: [] :=
  addItem_merge_changes_only_quantity [preorderLine] instantLine [] samplePayload
    (by decide) (by decide)

-- ── C10: stored identity always recomputable ─────────────────────────

theorem applyOp_wellFormed (items : List CartItem) (op : CartOp)
    (h : wellFormedIds items) : wellFormedIds (applyOp items op) := by
  cases op with
  | add p =>
    show wellFormedIds (addItem items p)
    cases hm : addQtyToFirstMatch (buildCartItemId p.product.id p.custom_message)
        (p.quantity?.getD 1) items with
    | some merged =>
      simp only [addItem, hm]
      exact addQty_wellFormed _ _ items merged h hm
    | none =>
      simp only [addItem, hm]
      intro it hit
      rcases List.mem_append.mp hit with hmem | hnew
      · exact h it hmem
      · simp only [List.mem_singleton] at hnew
        subst hnew
        exact (buildCartItemId_stored_message p.product.id p.custom_message).symm
  | remove cid => exact filter_wellFormed items _ h
  | update p =>
    show wellFormedIds (updateQuantity items p)
    unfold updateQuantity
    by_cases hq : p.quantity ≤ 0
    · rw [if_pos hq]; exact filter_wellFormed items _ h
    · rw [if_neg hq]
      intro it hit
      obtain ⟨x, hx, rfl⟩ := List.mem_map.mp hit
      by_cases hcx : x.cartItemId = p.cartItemId
      · rw [if_pos hcx]
        show x.cartItemId = buildCartItemId x.product.id x.custom_message
        exact h x hx
      · rw [if_neg hcx]
        exact h x hx
  | removeAllByProduct pid => exact filter_wellFormed items _ h
  | clear => intro it hit; exact absurd hit (List.not_mem_nil it)

theorem migrate_wellFormed (old : List LegacyCartItem) :
    wellFormedIds (migrateV0toV1 old) := by
  intro it hit
  obtain ⟨x, -, rfl⟩ := List.mem_map.mp hit
  rfl

/-- C10: every store operation preserves — and the v0 → v1 migration
establishes — the invariant that each line's stored `cartItemId` equals
`buildCartItemId(product.id, custom_message)` recomputed from the stored
fields, so identity-addressed mutations act on exactly the intended line. -/
theorem cartItemId_recomputable :
    (∀ (items : List CartItem) (op : CartOp),
       wellFormedIds items → wellFormedIds (applyOp items op)) ∧
    (∀ old : List LegacyCartItem, wellFormedIds (migrateV0toV1 old)) :=
  ⟨applyOp_wellFormed, migrate_wellFormed⟩

/-- C10 witness: the invariant holds of the empty cart and is carried through
a concrete `addItem`. -/
theorem cartItemId_recomputable_witness :
    wellFormedIds [] ∧ wellFormedIds (applyOp [] (.add samplePayload)) :=
  ⟨fun it hit => absurd hit (List.not_mem_nil it),
   cartItemId_recomputable.1 [] (.add samplePayload)
     (fun it hit => absurd hit (List.not_mem_nil it))⟩

end HXD
